import Mathlib

/-!
Verification of the ECS core of the WebAR presentation engine.

This file is a shallow embedding, in Lean 4, of the engine's core data
structures and operations, translated from the TypeScript source:

  * `World` (src/src/core/ecs/World.ts): entity registry, component store,
    system scheduler and query cache;
  * `Entity` (ECS Entity module): id, debug name and `active` flag;
  * `Component` / `System` base classes: modelled by the presence flags of
    their optional lifecycle hooks plus the data the core inspects
    (component kind string, system priority and `enabled` flag);
  * `SceneManager` (Scene Manager module): named-stage state machine;
  * `Time` (Time Management module): frame clock with frame-rate capping.

JavaScript `Map`s are modelled as insertion-ordered association lists with
the exact `Map.set` / `Map.get` / `Map.delete` / iteration semantics the
code relies on.  Side effects on collaborators (lifecycle hooks, console
warnings) are modelled as an explicit event trace, and JS exceptions as
`Except`.  JS numbers are modelled as `ℚ` for clock arithmetic and `ℤ` for
priorities; component classes are represented by their kind string, which
is what the code itself keys on (`component.constructor.name`).
-/

/-- Observable side effects on the core's collaborators: lifecycle hooks of
components, systems and stages, plus warning-level console signals. -/
inductive Event where
  | attach (kind : String) (cid : Nat)
  | detach (kind : String) (cid : Nat)
  | sysInit (name : String)
  | sysDestroy (name : String)
  | sysUpdate (name : String)
  | stageInit (name : String)
  | stageDestroy (name : String)
  | warn
deriving DecidableEq, Repr

/-- Errors thrown by the core (JS `throw new Error(...)`), per the error
taxonomy: unknown entity in `addComponent`, unknown stage in `switchTo`. -/
inductive Err where
  | EntityNotFound (id : Nat)
  | StageNotFound (name : String)
deriving DecidableEq, Repr

instance {ε α : Type} [DecidableEq ε] [DecidableEq α] : DecidableEq (Except ε α) := fun a b =>
  match a, b with
  | Except.ok x, Except.ok y =>
      if h : x = y then isTrue (h ▸ rfl) else isFalse (fun hh => h (Except.ok.inj hh))
  | Except.error x, Except.error y =>
      if h : x = y then isTrue (h ▸ rfl) else isFalse (fun hh => h (Except.error.inj hh))
  | Except.ok _, Except.error _ => isFalse (fun hh => Except.noConfusion hh)
  | Except.error _, Except.ok _ => isFalse (fun hh => Except.noConfusion hh)

/-- Embedding of the `Entity` class: a numeric id, a debug name and a
mutable `active` flag. -/
structure Entity where
  id : Nat
  name : String
  active : Bool
deriving DecidableEq, Repr

/-- Embedding of a `Component` instance: its kind (`constructor.name` in the
source), its owning entity id, an object identity `cid` (standing for JS
reference identity, so the trace can name individual instances), and flags
recording whether the optional `onAttach` / `onDetach` hooks are present. -/
structure Component where
  kind : String
  entityId : Nat
  cid : Nat
  hasAttach : Bool
  hasDetach : Bool
deriving DecidableEq, Repr

/-- What a system's `update` body does to the World's system list.  `noop`
covers systems that do not mutate the system list; `removeNamed n` covers a
body that calls `world.removeSystem(s)` on the system named `n` (JS object
identity is modelled by the system's name). -/
inductive SysAction where
  | noop
  | removeNamed (n : String)
deriving DecidableEq, Repr

/-- Embedding of a `System` instance: name (standing for object identity),
priority, `enabled` flag, presence flags for the optional `onInit` /
`onDestroy` hooks, and the effect of its `update` body on the system list. -/
structure Sys where
  name : String
  priority : Int
  enabled : Bool
  hasInit : Bool
  hasDestroy : Bool
  act : SysAction
deriving DecidableEq, Repr

section MapModel

variable {κ ν : Type} [DecidableEq κ]

/-- JS `Map.get`: the value stored at `k`, if any. -/
def mapGet : List (κ × ν) → κ → Option ν
  | [], _ => none
  | (k0, v0) :: rest, k => if k0 = k then some v0 else mapGet rest k

/-- JS `Map.set`: overwrite in place if the key is present (keeping its
insertion position), otherwise append at the end. -/
def mapSet : List (κ × ν) → κ → ν → List (κ × ν)
  | [], k, v => [(k, v)]
  | (k0, v0) :: rest, k, v =>
    if k0 = k then (k0, v) :: rest else (k0, v0) :: mapSet rest k v

/-- JS `Map.delete`: drop the entry for `k`, preserving the order of the
remaining entries. -/
def mapDelete (m : List (κ × ν)) (k : κ) : List (κ × ν) :=
  m.filter (fun p => p.1 ≠ k)

/-- JS `Map.has`. -/
def mapHas (m : List (κ × ν)) (k : κ) : Bool :=
  (mapGet m k).isSome

end MapModel

/-- Embedding of the `World` class state: `entities` (id → Entity),
`components` (id → (kind → Component)), the system list, and the query
cache (cache-key string → result id set, as the insertion-ordered list the
JS `Set` iterates in). -/
structure World where
  entities : List (Nat × Entity)
  components : List (Nat × List (String × Component))
  systems : List Sys
  queryCache : List (String × List Nat)
deriving DecidableEq, Repr

/-- The `World` constructor: all stores empty. -/
def World.empty : World :=
  { entities := [], components := [], systems := [], queryCache := [] }

/-- Embedding of `World.addEntity(entity)`: registers the entity and an empty component
map under `entity.id`.  (The source does not touch the query cache here.) -/
def World.addEntity (w : World) (e : Entity) : World :=
  { w with entities := mapSet w.entities e.id e,
           components := mapSet w.components e.id [] }

/-- Embedding of `World.removeEntity(entityId)`: fires `onDetach` on every component of
the entity (in component-map insertion order, hook present or skipped per
instance), deletes the entity and its component map, and clears the query
cache. -/
def World.removeEntity (w : World) (entityId : Nat) : World × List Event :=
  (( { w with entities := mapDelete w.entities entityId,
              components := mapDelete w.components entityId,
              queryCache := [] } : World),
   match mapGet w.components entityId with
   | some m => (m.filter (fun p => p.2.hasDetach)).map (fun p => Event.detach p.2.kind p.2.cid)
   | none => [])

/-- Embedding of `World.addComponent(entityId, component)`: throws when the entity has no
component map; otherwise stores the component under its kind (overwriting in
place), fires its `onAttach` hook if present, and clears the query cache. -/
def World.addComponent (w : World) (entityId : Nat) (c : Component) :
    Except Err (World × List Event) :=
  match mapGet w.components entityId with
  | none => Except.error (Err.EntityNotFound entityId)
  | some m =>
    Except.ok ({ w with components := mapSet w.components entityId (mapSet m c.kind c),
                        queryCache := [] },
               if c.hasAttach then [Event.attach c.kind c.cid] else [])

/-- Embedding of `World.removeComponent(entityId, componentClass)`: no-op when the entity
or the component of that kind is absent; otherwise fires `onDetach` if
present, deletes the component, and clears the query cache. -/
def World.removeComponent (w : World) (entityId : Nat) (kind : String) :
    World × List Event :=
  match mapGet w.components entityId with
  | none => (w, [])
  | some m =>
    match mapGet m kind with
    | none => (w, [])
    | some c =>
      ({ w with components := mapSet w.components entityId (mapDelete m kind),
                queryCache := [] },
       if c.hasDetach then [Event.detach c.kind c.cid] else [])

/-- Embedding of `World.getComponent(entityId, componentClass)`. -/
def World.getComponent (w : World) (entityId : Nat) (kind : String) : Option Component :=
  match mapGet w.components entityId with
  | none => none
  | some m => mapGet m kind

/-- Embedding of `World.hasComponent(entityId, componentClass)`. -/
def World.hasComponent (w : World) (entityId : Nat) (kind : String) : Bool :=
  match mapGet w.components entityId with
  | none => false
  | some m => mapHas m kind

/-- Lexicographic `≤` on character lists by code point, the order JS string
comparison uses (identical to UTF-16 code-unit order on the ASCII class
names the code sorts). -/
def lexLe : List Char → List Char → Bool
  | [], _ => true
  | _ :: _, [] => false
  | a :: as, b :: bs => if a < b then true else if b < a then false else lexLe as bs

/-- String comparison used by the default `Array.prototype.sort` comparator
in `World.query`. -/
def strLe (a b : String) : Bool := lexLe a.data b.data

/-- The string order as a relation, for use with `List.insertionSort`. -/
def strLeRel (a b : String) : Prop := strLe a b = true

instance : DecidableRel strLeRel := fun a b => instDecidableEqBool (strLe a b) true

/-- Embedding of `componentClasses.map(c => c.name).sort()`. -/
def sortKinds (kinds : List String) : List String :=
  List.insertionSort strLeRel kinds

/-- The query cache key: `componentClasses.map(c => c.name).sort().join(',')`. -/
def cacheKey (kinds : List String) : String :=
  String.intercalate "," (sortKinds kinds)

/-- The membership recomputation inside `World.query`: iterate the entity
map in insertion order, keep active entities having all the listed kinds. -/
def World.queryResult (w : World) (kinds : List String) : List Nat :=
  ((w.entities.map (fun p => p.2)).filter
    (fun e => e.active && kinds.all (fun k => World.hasComponent w e.id k))).map (fun e => e.id)

/-- Embedding of `World.query(...componentClasses)`: return the cached set when the key
is present, otherwise recompute, cache and return. -/
def World.query (w : World) (kinds : List String) : List Nat × World :=
  match mapGet w.queryCache (cacheKey kinds) with
  | some r => (r, w)
  | none =>
    (World.queryResult w kinds,
     { w with queryCache := mapSet w.queryCache (cacheKey kinds) (World.queryResult w kinds) })

/-- One step of the stable insertion sort below: insert `x` after every
element of priority ≤ `x.priority`. -/
def orderedInsertLast : List Sys → Sys → List Sys
  | [], x => [x]
  | y :: ys, x => if x.priority < y.priority then x :: y :: ys else y :: orderedInsertLast ys x

/-- Embedding of `this.systems.sort((a, b) => a.priority - b.priority)`:
`Array.prototype.sort` is stable (ES2019), and a left-to-right fold of
after-equals insertion is exactly a stable sort by priority. -/
def sortSystems (l : List Sys) : List Sys := l.foldl orderedInsertLast []

/-- Embedding of `World.addSystem(system)`: push, re-sort by priority (stable), fire the
system's `onInit` hook if present. -/
def World.addSystem (w : World) (s : Sys) : World × List Event :=
  ({ w with systems := sortSystems (w.systems ++ [s]) },
   if s.hasInit then [Event.sysInit s.name] else [])

/-- Embedding of `World.removeSystem(system)` on a system list: `indexOf` (first entry
with matching identity, modelled by name), fire `onDestroy` if present,
`splice` it out.  Absent system: no-op. -/
def removeSystemList : List Sys → String → List Sys × List Event
  | [], _ => ([], [])
  | s :: rest, n =>
    if s.name = n then
      (rest, if s.hasDestroy then [Event.sysDestroy s.name] else [])
    else
      (s :: (removeSystemList rest n).1, (removeSystemList rest n).2)

/-- Embedding of `World.removeSystem(system)`. -/
def World.removeSystem (w : World) (n : String) : World × List Event :=
  ({ w with systems := (removeSystemList w.systems n).1 },
   (removeSystemList w.systems n).2)

/-- Effect of one system's `update` body on the system list. -/
def applyAction (l : List Sys) : SysAction → List Sys × List Event
  | SysAction.noop => (l, [])
  | SysAction.removeNamed n => removeSystemList l n

/-- The priority order on systems (the sort key of the scheduler). -/
def sysLe (a b : Sys) : Prop := a.priority ≤ b.priority

/-- The sublist of systems having exactly priority `p` (used to state
stability of the scheduler sort). -/
def priFilter (p : Int) (l : List Sys) : List Sys :=
  l.filter (fun s => decide (s.priority = p))

/-- A sequence of `addSystem` calls, keeping only the resulting World. -/
def addSystemsFold (w : World) (ss : List Sys) : World :=
  ss.foldl (fun w2 s => (World.addSystem w2 s).1) w

/-- Embedding of the loop body of `World.update`: JS `for (const system of
this.systems)` is index-based iteration over the live (mutable) array, so a
mid-frame mutation of the array is visible to the remaining iterations. -/
def runFrameFrom (l : List Sys) (i : Nat) : List Sys × List Event :=
  if h : i < l.length then
    if (l.get ⟨i, h⟩).enabled then
      ((runFrameFrom (applyAction l (l.get ⟨i, h⟩).act).1 (i + 1)).1,
       Event.sysUpdate (l.get ⟨i, h⟩).name ::
         (applyAction l (l.get ⟨i, h⟩).act).2 ++
         (runFrameFrom (applyAction l (l.get ⟨i, h⟩).act).1 (i + 1)).2)
    else runFrameFrom l (i + 1)
  else (l, [])
termination_by l.length - i
decreasing_by
  · have hlen : ∀ (L : List Sys) (nm : String), (removeSystemList L nm).1.length ≤ L.length := by
      intro L nm
      induction L with
      | nil => simp [removeSystemList]
      | cons s rest ih =>
        by_cases hs : s.name = nm <;> simp [removeSystemList, hs]
        omega
    have happ : (applyAction l (l.get ⟨i, h⟩).act).1.length ≤ l.length := by
      cases (l.get ⟨i, h⟩).act with
      | noop => simp [applyAction]
      | removeNamed nm => exact hlen l nm
    omega
  · omega

/-- Embedding of `World.update(delta, elapsed)`: run every enabled system in list order
over the live system array. -/
def World.update (w : World) : World × List Event :=
  ({ w with systems := (runFrameFrom w.systems 0).1 },
   (runFrameFrom w.systems 0).2)

/-- Embedding of `World.clearQueryCache()`. -/
def World.clearQueryCache (w : World) : World :=
  { w with queryCache := [] }

/-- Embedding of `World.getEntityCount()`. -/
def World.getEntityCount (w : World) : Nat :=
  w.entities.length

/-- Embedding of `World.clear()`: fire every system's `onDestroy` and empty the system
list, then fire every component's `onDetach` and empty the component store,
then empty the entity registry and the query cache. -/
def World.clear (w : World) : World × List Event :=
  (World.empty,
   (w.systems.filter (fun s => s.hasDestroy)).map (fun s => Event.sysDestroy s.name) ++
   (w.components.map (fun p =>
     (p.2.filter (fun q => q.2.hasDetach)).map (fun q => Event.detach q.2.kind q.2.cid))).flatten)

/-- Embedding of `Entity.deactivate()` called on an entity object aliased by the world's
entity map: the `active` flag of the stored entity with that id flips to
`false`; nothing else in the world changes. -/
def World.deactivateEntity (w : World) (id : Nat) : World :=
  { w with entities := w.entities.map (fun p => if p.2.id = id then (p.1, { p.2 with active := false }) else p) }

/-- Embedding of `Entity.activate()` called on an entity object aliased by the world's
entity map. -/
def World.activateEntity (w : World) (id : Nat) : World :=
  { w with entities := w.entities.map (fun p => if p.2.id = id then (p.1, { p.2 with active := true }) else p) }

/-- Embedding of a `Stage` collaborator: the state machine only reads its
name and fires its lifecycle hooks (which the `Stage` interface requires,
so no presence flags are needed). -/
structure Stage where
  name : String
deriving DecidableEq, Repr

/-- Embedding of the `SceneManager` class state: the registry of named
stages and the current stage (if any). -/
structure SceneManager where
  currentStage : Option Stage
  stages : List (String × Stage)
deriving DecidableEq, Repr

/-- The `SceneManager` constructor. -/
def SceneManager.create : SceneManager :=
  { currentStage := none, stages := [] }

/-- Embedding of `SceneManager.registerStage(name, stage)`. -/
def SceneManager.registerStage (m : SceneManager) (name : String) (st : Stage) : SceneManager :=
  { m with stages := mapSet m.stages name st }

/-- Embedding of `SceneManager.switchTo(name)`: throws `StageNotFound` when the name is
unregistered (before any state change); otherwise fires the current stage's
`onDestroy` (if a stage is current), sets the requested stage as current,
and fires its `onInit`. -/
def SceneManager.switchTo (m : SceneManager) (name : String) :
    Except Err (SceneManager × List Event) :=
  match mapGet m.stages name with
  | none => Except.error (Err.StageNotFound name)
  | some next =>
    Except.ok ({ m with currentStage := some next },
      (match m.currentStage with
       | some c => [Event.stageDestroy c.name]
       | none => []) ++ [Event.stageInit next.name])

/-- Embedding of `SceneManager.dispose()`: fires the current stage's `onDestroy` (if
any), clears the current stage and empties the registry. -/
def SceneManager.dispose (m : SceneManager) : SceneManager × List Event :=
  ({ currentStage := none, stages := [] },
   match m.currentStage with
   | some c => [Event.stageDestroy c.name]
   | none => [])

/-- Embedding of the `Time` class state.  Timestamps and durations are
rationals standing for JS numbers (milliseconds from `performance.now()`,
seconds for `delta` / `elapsed`); `hasCallback` records whether
`updateCallback` is non-null.  The `rafId` bookkeeping of the host's
animation-frame scheduler is outside the model: scheduling shows up as the
constructors of `TickResult`. -/
structure Time where
  startTime : ℚ
  lastFrameTime : ℚ
  delta : ℚ
  elapsed : ℚ
  frameCount : Nat
  targetFPS : ℚ
  minFrameTime : ℚ
  fps : ℤ
  fpsAccumulator : ℚ
  fpsFrameCount : Nat
  hasCallback : Bool
  isRunning : Bool
deriving DecidableEq, Repr

/-- Outcome of one `Time.tick(currentTime)` call: the loop was stopped (an
early return, no reschedule), the frame was skipped by the frame-rate cap
(reschedule, state otherwise unchanged), or the frame ran (reschedule, with
`some (delta, elapsed)` when the update callback was invoked with those
arguments). -/
inductive TickResult where
  | stopped (t : Time)
  | skipped (t : Time)
  | ran (t : Time) (callbackArgs : Option (ℚ × ℚ))
deriving DecidableEq, Repr

/-- The `Time` constructor (`new Time(targetFPS)` at wall-clock time `now`,
the value `performance.now()` returns there). -/
def Time.create (targetFPS : ℚ) (now : ℚ) : Time :=
  { startTime := now
    lastFrameTime := now
    delta := 0
    elapsed := 0
    frameCount := 0
    targetFPS := targetFPS
    minFrameTime := if 0 < targetFPS then 1000 / targetFPS else 0
    fps := 0
    fpsAccumulator := 0
    fpsFrameCount := 0
    hasCallback := false
    isRunning := false }

/-- The `targetFPS` setter: updates the target and recomputes
`minFrameTime` (`0` meaning uncapped). -/
def Time.setTargetFPS (tm : Time) (fps : ℚ) : Time :=
  { tm with targetFPS := fps, minFrameTime := if 0 < fps then 1000 / fps else 0 }

/-- Embedding of `Time.tick(currentTime)`: early-return when stopped; skip (without
invoking the callback and without updating `lastFrameTime`) when a positive
target FPS is set and `deltaMs` is below `minFrameTime`; otherwise update
`delta` / `elapsed` / `frameCount`, roll the one-second FPS estimate,
invoke the callback if set, and record `lastFrameTime`. -/
def Time.tick (tm : Time) (currentTime : ℚ) : TickResult :=
  if tm.isRunning = false then TickResult.stopped tm
  else
    if 0 < tm.targetFPS ∧ currentTime - tm.lastFrameTime < tm.minFrameTime then
      TickResult.skipped tm
    else
      TickResult.ran
        (if 1000 ≤ tm.fpsAccumulator + (currentTime - tm.lastFrameTime) then
          { tm with
            delta := (currentTime - tm.lastFrameTime) / 1000
            elapsed := (currentTime - tm.startTime) / 1000
            frameCount := tm.frameCount + 1
            fps := round (((tm.fpsFrameCount + 1 : ℚ)) * 1000 / (tm.fpsAccumulator + (currentTime - tm.lastFrameTime)))
            fpsAccumulator := 0
            fpsFrameCount := 0
            lastFrameTime := currentTime }
        else
          { tm with
            delta := (currentTime - tm.lastFrameTime) / 1000
            elapsed := (currentTime - tm.startTime) / 1000
            frameCount := tm.frameCount + 1
            fpsAccumulator := tm.fpsAccumulator + (currentTime - tm.lastFrameTime)
            fpsFrameCount := tm.fpsFrameCount + 1
            lastFrameTime := currentTime })
        (if tm.hasCallback then
          some ((currentTime - tm.lastFrameTime) / 1000, (currentTime - tm.startTime) / 1000)
        else none)

/-- Outcome of `Time.start(callback)`: either the loop was already running
(warning logged, nothing changed) or the loop started and the first tick
ran synchronously. -/
inductive StartResult where
  | alreadyRunning (t : Time)
  | started (r : TickResult)
deriving DecidableEq, Repr

/-- Embedding of `Time.start(callback)` at wall-clock time `now`: warn-and-return when
already running; otherwise store the callback, transition to running, set
`lastFrameTime := now` (note: `startTime` is not touched) and call
`tick(now)` synchronously. -/
def Time.start (tm : Time) (now : ℚ) : StartResult :=
  if tm.isRunning then StartResult.alreadyRunning tm
  else
    StartResult.started
      (Time.tick { tm with hasCallback := true, isRunning := true, lastFrameTime := now } now)

/-- Embedding of `Time.stop()`: cancel the pending tick (outside the model) and
transition to stopped; idempotent. -/
def Time.stop (tm : Time) : Time :=
  { tm with isRunning := false }

/-- Embedding of `Time.reset()`: re-base `startTime` / `lastFrameTime` to now and zero
all counters, without touching the running flag. -/
def Time.reset (tm : Time) (now : ℚ) : Time :=
  { tm with startTime := now, lastFrameTime := now, delta := 0, elapsed := 0,
            frameCount := 0, fps := 0, fpsAccumulator := 0, fpsFrameCount := 0 }

/-- A system whose update body removes itself from the World
(`world.removeSystem(this)`). -/
def sysA : Sys :=
  { name := "A", priority := 0, enabled := true, hasInit := false, hasDestroy := false,
    act := SysAction.removeNamed "A" }

/-- A system whose update body does not touch the system list. -/
def sysB : Sys :=
  { name := "B", priority := 0, enabled := true, hasInit := false, hasDestroy := false,
    act := SysAction.noop }

/-- A second mutation-free system. -/
def sysC : Sys :=
  { name := "C", priority := 0, enabled := true, hasInit := false, hasDestroy := false,
    act := SysAction.noop }

/-- A disabled mutation-free system. -/
def sysD : Sys :=
  { name := "D", priority := 0, enabled := false, hasInit := false, hasDestroy := false,
    act := SysAction.noop }

/-- Priority-example systems for the scheduler order: priorities 5, -100, 0, 5
added in that order. -/
def sysP5a : Sys :=
  { name := "P5a", priority := 5, enabled := true, hasInit := false, hasDestroy := false,
    act := SysAction.noop }

/-- Priority -100, added second. -/
def sysM100 : Sys :=
  { name := "M100", priority := -100, enabled := true, hasInit := false, hasDestroy := false,
    act := SysAction.noop }

/-- Priority 0, added third. -/
def sysP0 : Sys :=
  { name := "P0", priority := 0, enabled := true, hasInit := false, hasDestroy := false,
    act := SysAction.noop }

/-- Priority 5, added fourth (same priority as `sysP5a`). -/
def sysP5b : Sys :=
  { name := "P5b", priority := 5, enabled := true, hasInit := false, hasDestroy := false,
    act := SysAction.noop }

/-- A world holding three enabled mutation-free systems, one disabled. -/
def wNoopEx : World := addSystemsFold World.empty [sysB, sysD, sysC]

/-- A concrete entity with id 1. -/
def entE : Entity := { id := 1, name := "E", active := true }

/-- A concrete component of kind "A" owned by entity 1, with no lifecycle
hooks. -/
def compA : Component :=
  { kind := "A", entityId := 1, cid := 10, hasAttach := false, hasDetach := false }

/-- The world after `addEntity(entE)` on a fresh world. -/
def w0ex : World := World.addEntity World.empty entE

/-- The world after additionally `addComponent(1, compA)`: entity 1 holds the
kind-"A" component. -/
def w1ex : World :=
  { entities := [(1, entE)], components := [(1, [("A", compA)])], systems := [],
    queryCache := [] }

/-- Two concrete stages and a scene manager currently showing `stMenu`. -/
def stMenu : Stage := { name := "menu" }

/-- The stage registered under "game". -/
def stGame : Stage := { name := "game" }

/-- A scene manager with stages "menu" and "game" registered and "menu"
current. -/
def smEx : SceneManager :=
  { currentStage := some stMenu, stages := [("menu", stMenu), ("game", stGame)] }

/-- The clock state reached by `new Time(0)` at time 0 followed by
`start(cb)` at time 5000 (running, callback set, first tick done). -/
def t8ex : Time :=
  { startTime := 0, lastFrameTime := 5000, delta := 0, elapsed := 5, frameCount := 1,
    targetFPS := 0, minFrameTime := 0, fps := 0, fpsAccumulator := 0, fpsFrameCount := 1,
    hasCallback := true, isRunning := true }

/-- A running clock capped at 30 FPS whose last frame ran at t = 1000 ms. -/
def tmW : Time :=
  { startTime := 0, lastFrameTime := 1000, delta := 0, elapsed := 0, frameCount := 0,
    targetFPS := 30, minFrameTime := 1000 / 30, fps := 0, fpsAccumulator := 0,
    fpsFrameCount := 0, hasCallback := true, isRunning := true }

theorem lexLe_total (as bs : List Char) : lexLe as bs = true ∨ lexLe bs as = true := by
  induction as generalizing bs with
  | nil => left; rfl
  | cons a as ih =>
    cases bs with
    | nil => right; rfl
    | cons b bs =>
      by_cases h1 : a < b
      · left
        simp [lexLe, h1]
      · by_cases h2 : b < a
        · right
          simp [lexLe, h2]
        · rcases ih bs with h | h
          · left
            simp [lexLe, h1, h2, h]
          · right
            simp [lexLe, h1, h2, h]

theorem lexLe_trans (as bs cs : List Char) (h1 : lexLe as bs = true)
    (h2 : lexLe bs cs = true) : lexLe as cs = true := by
  induction as generalizing bs cs with
  | nil => rfl
  | cons a as ih =>
    cases bs with
    | nil => simp [lexLe] at h1
    | cons b bs =>
      cases cs with
      | nil => simp [lexLe] at h2
      | cons c cs =>
        by_cases hab : a < b
        · by_cases hbc : b < c
          · simp [lexLe, lt_trans hab hbc]
          · by_cases hcb : c < b
            · simp [lexLe, hbc, hcb] at h2
            · have hbceq : b = c := le_antisymm (not_lt.mp hcb) (not_lt.mp hbc)
              simp [lexLe, hbceq ▸ hab]
        · by_cases hba : b < a
          · simp [lexLe, hab, hba] at h1
          · have habeq : a = b := le_antisymm (not_lt.mp hba) (not_lt.mp hab)
            subst habeq
            by_cases hbc : a < c
            · simp [lexLe, hbc]
            · by_cases hcb : c < a
              · simp [lexLe, hbc, hcb] at h2
              · simp only [lexLe, if_neg hab, if_neg hba] at h1
                simp only [lexLe, if_neg hbc, if_neg hcb] at h2 ⊢
                exact ih bs cs h1 h2

theorem lexLe_antisymm (as bs : List Char) (h1 : lexLe as bs = true)
    (h2 : lexLe bs as = true) : as = bs := by
  induction as generalizing bs with
  | nil =>
    cases bs with
    | nil => rfl
    | cons b bs => simp [lexLe] at h2
  | cons a as ih =>
    cases bs with
    | nil => simp [lexLe] at h1
    | cons b bs =>
      by_cases hab : a < b
      · simp [lexLe, hab, asymm hab] at h2
      · by_cases hba : b < a
        · simp [lexLe, hab, hba] at h1
        · have habeq : a = b := le_antisymm (not_lt.mp hba) (not_lt.mp hab)
          simp only [lexLe, if_neg hab, if_neg hba] at h1
          simp only [lexLe, if_neg hba, if_neg hab] at h2
          rw [habeq, ih bs h1 h2]

instance : IsTotal String strLeRel :=
  ⟨fun a b => lexLe_total a.data b.data⟩

instance : IsTrans String strLeRel :=
  ⟨fun a b c h1 h2 => lexLe_trans a.data b.data c.data h1 h2⟩

instance : IsAntisymm String strLeRel :=
  ⟨fun a b h1 h2 => String.ext (lexLe_antisymm a.data b.data h1 h2)⟩

theorem mapGet_mapSet_self {κ ν : Type} [DecidableEq κ] (m : List (κ × ν)) (k : κ) (v : ν) :
    mapGet (mapSet m k v) k = some v := by
  induction m with
  | nil => simp [mapGet, mapSet]
  | cons p rest ih =>
    by_cases h : p.1 = k <;> simp [mapGet, mapSet, h, ih]

theorem mapGet_mapSet_ne {κ ν : Type} [DecidableEq κ] (m : List (κ × ν)) (k k2 : κ) (v : ν)
    (h : k ≠ k2) : mapGet (mapSet m k v) k2 = mapGet m k2 := by
  induction m with
  | nil => simp [mapGet, mapSet, h]
  | cons p rest ih =>
    by_cases hp : p.1 = k <;> by_cases hq : p.1 = k2
    · exact absurd (hp ▸ hq) h
    · simp [mapGet, mapSet, hp, hq, ih, h]
    · have hne : ¬ k2 = k := fun he => h he.symm
      simp [mapGet, mapSet, hp, hq, hne, ih]
    · simp [mapGet, mapSet, hp, hq, ih]

theorem mem_orderedInsertLast (l : List Sys) (x y : Sys) :
    y ∈ orderedInsertLast l x ↔ y ∈ l ∨ y = x := by
  induction l with
  | nil => simp [orderedInsertLast]
  | cons z zs ih =>
    by_cases h : x.priority < z.priority <;> simp [orderedInsertLast, h, ih] <;> tauto

theorem orderedInsertLast_sorted (l : List Sys) (x : Sys) (h : l.Sorted sysLe) :
    (orderedInsertLast l x).Sorted sysLe := by
  induction l with
  | nil => simp [orderedInsertLast, List.Sorted]
  | cons z zs ih =>
    rw [List.sorted_cons] at h
    by_cases hx : x.priority < z.priority
    · simp only [orderedInsertLast, if_pos hx]
      rw [List.sorted_cons]
      refine ⟨?_, List.sorted_cons.mpr h⟩
      intro b hb
      rcases List.mem_cons.mp hb with rfl | hb
      · exact le_of_lt hx
      · exact le_trans (le_of_lt hx) (h.1 b hb)
    · simp only [orderedInsertLast, if_neg hx]
      rw [List.sorted_cons]
      refine ⟨?_, ih h.2⟩
      intro b hb
      rcases (mem_orderedInsertLast zs x b).mp hb with hb | rfl
      · exact h.1 b hb
      · exact not_lt.mp hx

theorem priFilter_eq_nil (p : Int) (l : List Sys) (h : ∀ s ∈ l, ¬ s.priority = p) :
    priFilter p l = [] := by
  induction l with
  | nil => rfl
  | cons z zs ih =>
    have hz := h z (List.mem_cons_self z zs)
    have ih2 := ih (fun s hs => h s (List.mem_cons_of_mem z hs))
    simpa [priFilter, List.filter_cons, hz] using ih2

theorem priFilter_orderedInsertLast (p : Int) (l : List Sys) (x : Sys) (h : l.Sorted sysLe) :
    priFilter p (orderedInsertLast l x) =
      if x.priority = p then priFilter p l ++ [x] else priFilter p l := by
  induction l with
  | nil =>
    by_cases hx : x.priority = p <;> simp [orderedInsertLast, priFilter, List.filter_cons, hx]
  | cons z zs ih =>
    rw [List.sorted_cons] at h
    by_cases hlt : x.priority < z.priority
    · simp only [orderedInsertLast, if_pos hlt]
      by_cases hx : x.priority = p
      · have hnil : priFilter p (z :: zs) = [] := by
          refine priFilter_eq_nil p (z :: zs) ?_
          intro s hs
          rcases List.mem_cons.mp hs with rfl | hs
          · omega
          · have := h.1 s hs
            simp only [sysLe] at this
            omega
        have hcons : priFilter p (x :: z :: zs) = x :: priFilter p (z :: zs) := by
          simp [priFilter, List.filter_cons, hx]
        rw [if_pos hx, hcons, hnil]
        rfl
      · simp [priFilter, List.filter_cons, hx]
    · simp only [orderedInsertLast, if_neg hlt]
      have hrec := ih h.2
      by_cases hz : z.priority = p <;> by_cases hx : x.priority = p <;>
        simp [priFilter, List.filter_cons, hz, hx] at hrec ⊢ <;> simp [hrec]

theorem foldl_orderedInsertLast_sorted (ss acc : List Sys) (h : acc.Sorted sysLe) :
    (ss.foldl orderedInsertLast acc).Sorted sysLe := by
  induction ss generalizing acc with
  | nil => exact h
  | cons s rest ih => exact ih _ (orderedInsertLast_sorted acc s h)

theorem priFilter_foldl_orderedInsertLast (p : Int) (ss acc : List Sys) (h : acc.Sorted sysLe) :
    priFilter p (ss.foldl orderedInsertLast acc) = priFilter p acc ++ priFilter p ss := by
  induction ss generalizing acc with
  | nil => simp [priFilter]
  | cons s rest ih =>
    rw [List.foldl_cons, ih (orderedInsertLast acc s) (orderedInsertLast_sorted acc s h),
        priFilter_orderedInsertLast p acc s h]
    by_cases hs : s.priority = p <;> simp [priFilter, List.filter_cons, hs]

theorem sortSystems_sorted (l : List Sys) : (sortSystems l).Sorted sysLe :=
  foldl_orderedInsertLast_sorted l [] (by simp)

theorem priFilter_sortSystems (p : Int) (l : List Sys) :
    priFilter p (sortSystems l) = priFilter p l := by
  have h := priFilter_foldl_orderedInsertLast p l [] (by simp)
  simpa [sortSystems, priFilter] using h

theorem orderedInsertLast_eq_append (l : List Sys) (x : Sys)
    (h : ∀ s ∈ l, s.priority ≤ x.priority) : orderedInsertLast l x = l ++ [x] := by
  induction l with
  | nil => rfl
  | cons z zs ih =>
    have hz : ¬ x.priority < z.priority := not_lt.mpr (h z (List.mem_cons_self z zs))
    simp [orderedInsertLast, hz, ih (fun s hs => h s (List.mem_cons_of_mem z hs))]

theorem sortSystems_eq_of_sorted (l : List Sys) (h : l.Sorted sysLe) : sortSystems l = l := by
  induction l using List.reverseRecOn with
  | nil => rfl
  | append_singleton zs x ih =>
    have hzs : zs.Sorted sysLe := (List.pairwise_append.mp h).1
    have hall : ∀ s ∈ zs, s.priority ≤ x.priority := by
      intro s hs
      exact (List.pairwise_append.mp h).2.2 s hs x (List.mem_singleton_self x)
    rw [sortSystems, List.foldl_append]
    rw [show List.foldl orderedInsertLast [] zs = sortSystems zs from rfl, ih hzs]
    exact orderedInsertLast_eq_append zs x hall

theorem addSystem_systems (w : World) (s : Sys) (h : w.systems.Sorted sysLe) :
    (World.addSystem w s).1.systems = orderedInsertLast w.systems s := by
  show sortSystems (w.systems ++ [s]) = _
  rw [sortSystems, List.foldl_append]
  rw [show List.foldl orderedInsertLast [] w.systems = sortSystems w.systems from rfl,
      sortSystems_eq_of_sorted w.systems h]
  rfl

theorem addSystemsFold_systems (w : World) (ss : List Sys) (h : w.systems.Sorted sysLe) :
    (addSystemsFold w ss).systems.Sorted sysLe ∧
    ∀ p, priFilter p (addSystemsFold w ss).systems =
           priFilter p w.systems ++ priFilter p ss := by
  induction ss generalizing w with
  | nil => exact ⟨h, fun p => by simp [addSystemsFold, priFilter]⟩
  | cons s rest ih =>
    have hstep := addSystem_systems w s h
    have hsort2 : (World.addSystem w s).1.systems.Sorted sysLe := by
      rw [hstep]; exact orderedInsertLast_sorted w.systems s h
    have hrec := ih (World.addSystem w s).1 hsort2
    have hfold : addSystemsFold w (s :: rest) = addSystemsFold (World.addSystem w s).1 rest := rfl
    refine ⟨by rw [hfold]; exact hrec.1, ?_⟩
    intro p
    rw [hfold, hrec.2 p, hstep, priFilter_orderedInsertLast p w.systems s h]
    by_cases hs : s.priority = p <;> simp [priFilter, List.filter_cons, hs]

theorem runFrameFrom_noop_aux (l : List Sys) (h : ∀ s ∈ l, s.act = SysAction.noop) :
    ∀ n i, l.length - i ≤ n →
      runFrameFrom l i =
        (l, ((l.drop i).filter (fun s => s.enabled)).map (fun s => Event.sysUpdate s.name)) := by
  intro n
  induction n with
  | zero =>
    intro i hi
    rw [runFrameFrom, dif_neg (by omega)]
    rw [List.drop_eq_nil_of_le (by omega)]
    rfl
  | succ n ih =>
    intro i hi
    by_cases hlt : i < l.length
    · have hdrop : l.drop i = l.get ⟨i, hlt⟩ :: l.drop (i + 1) := by
        rw [List.get_eq_getElem]
        exact (List.getElem_cons_drop l i hlt).symm
      have hact : (l.get ⟨i, hlt⟩).act = SysAction.noop := h _ (l.get_mem i hlt)
      rw [runFrameFrom, dif_pos hlt, hact]
      have hrec := ih (i + 1) (by omega)
      by_cases he : (l.get ⟨i, hlt⟩).enabled
      · rw [if_pos he]
        have happ : applyAction l SysAction.noop = (l, []) := rfl
        rw [happ, hrec, hdrop, List.filter_cons, if_pos he]
        rfl
      · rw [if_neg he, hrec, hdrop, List.filter_cons, if_neg (by simpa using he)]
    · rw [runFrameFrom, dif_neg hlt]
      rw [List.drop_eq_nil_of_le (by omega)]
      rfl

theorem runFrameFrom_noop (l : List Sys) (h : ∀ s ∈ l, s.act = SysAction.noop) :
    runFrameFrom l 0 =
      (l, (l.filter (fun s => s.enabled)).map (fun s => Event.sysUpdate s.name)) := by
  have := runFrameFrom_noop_aux l h l.length 0 (by omega)
  simpa using this

theorem all_eq_of_mem_iff {α : Type} {p : α → Bool} {l1 l2 : List α}
    (h : ∀ x, x ∈ l1 ↔ x ∈ l2) : l1.all p = l2.all p := by
  by_cases h1 : l1.all p = true
  · have h2 : l2.all p = true :=
      List.all_eq_true.mpr (fun x hx => List.all_eq_true.mp h1 x ((h x).mpr hx))
    rw [h1, h2]
  · have h2 : ¬ l2.all p = true := fun hh =>
      h1 (List.all_eq_true.mpr (fun x hx => List.all_eq_true.mp hh x ((h x).mp hx)))
    rw [Bool.not_eq_true] at h1 h2
    rw [h1, h2]

theorem queryResult_ext (w : World) {k1 k2 : List String} (h : ∀ x, x ∈ k1 ↔ x ∈ k2) :
    World.queryResult w k1 = World.queryResult w k2 := by
  unfold World.queryResult
  apply congrArg
  apply List.filter_congr
  intro e _
  rw [all_eq_of_mem_iff h]

theorem sortKinds_perm_eq {k1 k2 : List String} (h : k1.Perm k2) : sortKinds k1 = sortKinds k2 :=
  List.eq_of_perm_of_sorted
    (((List.perm_insertionSort strLeRel k1).trans h).trans (List.perm_insertionSort strLeRel k2).symm)
    (List.sorted_insertionSort strLeRel k1)
    (List.sorted_insertionSort strLeRel k2)

theorem cacheKey_perm_eq {k1 k2 : List String} (h : k1.Perm k2) : cacheKey k1 = cacheKey k2 := by
  unfold cacheKey
  rw [sortKinds_perm_eq h]

theorem query_caches (w : World) (kinds : List String) :
    mapGet ((World.query w kinds).2).queryCache (cacheKey kinds) =
      some (World.query w kinds).1 := by
  cases hc : mapGet w.queryCache (cacheKey kinds) with
  | some r => simp [World.query, hc]
  | none => simp [World.query, hc, mapGet_mapSet_self]

theorem query_hit (w : World) (kinds : List String) (r : List Nat)
    (h : mapGet w.queryCache (cacheKey kinds) = some r) : World.query w kinds = (r, w) := by
  simp [World.query, h]

/-- Claim C1, counterexample: `addEntity` is a structural mutation that does
NOT invalidate the query cache.  Concretely: entity 1 holds a kind-"A"
component and `query("A")` caches `{1}`; re-registering entity 1 via
`addEntity` resets its component map to empty without touching the cache, so
the next `query("A")` still returns `{1}` although entity 1 no longer has
the component — stale membership, and different from the lazily recomputed
result. -/
theorem addEntity_stale_query_cex :
    World.addComponent w0ex 1 compA = Except.ok (w1ex, []) ∧
    (World.query w1ex ["A"]).1 = [1] ∧
    (World.query (World.addEntity (World.query w1ex ["A"]).2 entE) ["A"]).1 = [1] ∧
    World.hasComponent (World.addEntity (World.query w1ex ["A"]).2 entE) 1 "A" = false ∧
    World.queryResult (World.addEntity (World.query w1ex ["A"]).2 entE) ["A"] = [] := by
  decide

/-- Claim C1, amended: `removeEntity` always, and `addComponent` /
`removeComponent` whenever they mutate, empty the query cache before the
next query, and a query on an empty cache reflects the latest component
store state; `addEntity`, however, leaves the query cache untouched, so a
query issued after `addEntity` alone may return stale membership. -/
theorem mutation_invalidates_cache (w : World) (id : Nat) (c : Component) (kind : String)
    (kinds : List String) (e : Entity) :
    (World.removeEntity w id).1.queryCache = [] ∧
    (∀ w2 evs, World.addComponent w id c = Except.ok (w2, evs) → w2.queryCache = []) ∧
    ((World.removeComponent w id kind).1.queryCache = [] ∨
      (World.removeComponent w id kind).1 = w) ∧
    (w.queryCache = [] → (World.query w kinds).1 = World.queryResult w kinds) ∧
    (World.addEntity w e).queryCache = w.queryCache := by
  refine ⟨rfl, ?_, ?_, ?_, rfl⟩
  · intro w2 evs h
    cases hm : mapGet w.components id with
    | none => simp [World.addComponent, hm] at h
    | some m =>
      simp only [World.addComponent, hm] at h
      cases h
      rfl
  · cases hm : mapGet w.components id with
    | none => right; simp [World.removeComponent, hm]
    | some m =>
      cases hk : mapGet m kind with
      | none => right; simp [World.removeComponent, hm, hk]
      | some c2 => left; simp [World.removeComponent, hm, hk]
  · intro h
    simp [World.query, h, mapGet]

/-- Claim C2, counterexample: `World.update` iterates the live system array,
so a mid-frame removal shifts later systems into the vacated slot and the
iteration skips one.  Concretely: systems A, B, C all enabled; A's update
removes A; the frame then updates C but never B, although B was in the list
at frame start, stays in the list, and is enabled throughout. -/
theorem update_live_iteration_skips_cex :
    sysB ∈ (addSystemsFold World.empty [sysA, sysB, sysC]).systems ∧
    sysB.enabled = true ∧
    sysB ∈ (World.update (addSystemsFold World.empty [sysA, sysB, sysC])).1.systems ∧
    List.count (Event.sysUpdate "B")
      (World.update (addSystemsFold World.empty [sysA, sysB, sysC])).2 = 0 ∧
    (World.update (addSystemsFold World.empty [sysA, sysB, sysC])).2 =
      [Event.sysUpdate "A", Event.sysUpdate "C"] := by
  have hsys : (addSystemsFold World.empty [sysA, sysB, sysC]).systems = [sysA, sysB, sysC] := by
    decide
  have hrun : runFrameFrom [sysA, sysB, sysC] 0 =
      ([sysB, sysC], [Event.sysUpdate "A", Event.sysUpdate "C"]) := by
    rw [runFrameFrom]
    simp only [List.length_cons, List.length_nil]
    rw [dif_pos (by omega)]
    simp [sysA, sysB, sysC, applyAction, removeSystemList, runFrameFrom]
  have hupd : World.update (addSystemsFold World.empty [sysA, sysB, sysC]) =
      ({ addSystemsFold World.empty [sysA, sysB, sysC] with systems := [sysB, sysC] },
       [Event.sysUpdate "A", Event.sysUpdate "C"]) := by
    simp only [World.update, hsys, hrun]
  rw [hupd]
  refine ⟨by decide, by decide, by decide, by decide, by decide⟩

/-- Claim C2, amended: when no system's update mutates the system list,
`World.update` leaves the world unchanged and runs every enabled system
exactly once, in list order, skipping disabled ones; with a mid-frame
removal at an index at or before the running one the live iteration skips
the system that shifts into the vacated slot (see the counterexample). -/
theorem update_noop_runs_each_enabled_once (w : World)
    (h : ∀ s ∈ w.systems, s.act = SysAction.noop) :
    (World.update w).1 = w ∧
    (World.update w).2 =
      (w.systems.filter (fun s => s.enabled)).map (fun s => Event.sysUpdate s.name) := by
  have hr := runFrameFrom_noop w.systems h
  constructor
  · show ({ w with systems := (runFrameFrom w.systems 0).1 } : World) = w
    rw [hr]
  · show (runFrameFrom w.systems 0).2 = _
    rw [hr]

/-- Claim C2, witness: a concrete mutation-free frame (B enabled, D
disabled, C enabled) leaves the world unchanged and updates exactly B then
C. -/
theorem update_noop_runs_each_enabled_once_witness :
    (World.update wNoopEx).1 = wNoopEx ∧
    (World.update wNoopEx).2 = [Event.sysUpdate "B", Event.sysUpdate "C"] := by
  have h := update_noop_runs_each_enabled_once wNoopEx (by decide)
  exact ⟨h.1, h.2.trans (by decide)⟩

/-- Claim C3: for every sequence of `addSystem` calls on a fresh world, the
resulting system list is sorted ascending by priority, each priority class
keeps its insertion order (stability, stated as: filtering the result to any
one priority returns exactly the added systems of that priority in their
insertion order), and a mutation-free `World.update` fires the update hooks
in exactly that list order, skipping disabled systems. -/
theorem addSystem_priority_order (ss : List Sys) :
    (addSystemsFold World.empty ss).systems.Sorted sysLe ∧
    (∀ p : Int, priFilter p (addSystemsFold World.empty ss).systems = priFilter p ss) ∧
    ((∀ s ∈ ss, s.act = SysAction.noop) →
      (World.update (addSystemsFold World.empty ss)).2 =
        ((addSystemsFold World.empty ss).systems.filter (fun s => s.enabled)).map
          (fun s => Event.sysUpdate s.name)) := by
  have hbase := addSystemsFold_systems World.empty ss (by simp [World.empty])
  refine ⟨hbase.1, ?_, ?_⟩
  · intro p
    have h := hbase.2 p
    simpa [World.empty, priFilter] using h
  · intro hnoop
    have hmem : ∀ s ∈ (addSystemsFold World.empty ss).systems, s.act = SysAction.noop := by
      intro s hs
      have h1 : s ∈ priFilter s.priority (addSystemsFold World.empty ss).systems := by
        simp [priFilter, List.mem_filter, hs]
      rw [hbase.2 s.priority] at h1
      have h2 : s ∈ priFilter s.priority ss := by
        simpa [World.empty, priFilter] using h1
      exact hnoop s (List.mem_filter.mp h2).1
    have hr := runFrameFrom_noop (addSystemsFold World.empty ss).systems hmem
    show (runFrameFrom (addSystemsFold World.empty ss).systems 0).2 = _
    rw [hr]

/-- Claim C3, the spec's example as a witness: systems with priorities
[5, -100, 0, 5] added in that order are stored, and updated, in the order
[-100, 0, 5 (first added), 5 (second added)]. -/
theorem addSystem_priority_order_example :
    (addSystemsFold World.empty [sysP5a, sysM100, sysP0, sysP5b]).systems =
      [sysM100, sysP0, sysP5a, sysP5b] ∧
    (World.update (addSystemsFold World.empty [sysP5a, sysM100, sysP0, sysP5b])).2 =
      [Event.sysUpdate "M100", Event.sysUpdate "P0",
       Event.sysUpdate "P5a", Event.sysUpdate "P5b"] := by
  constructor
  · decide
  · have h := (addSystem_priority_order [sysP5a, sysM100, sysP0, sysP5b]).2.2 (by decide)
    rw [h]
    decide

/-- Claim C4, counterexample: the cache key is the sorted but NOT
deduplicated kind list, so `query(A, A, B)` and `query(A, B)` use different
cache keys (the claim says they use the same one), although they return the
same membership. -/
theorem cacheKey_not_dedup_cex :
    cacheKey ["A", "A", "B"] ≠ cacheKey ["A", "B"] ∧
    (World.query w1ex ["A", "A", "B"]).1 = (World.query w1ex ["A", "B"]).1 := by
  decide

/-- Claim C4, amended: the cache key is derived from the sorted kind list
(so permuting the arguments changes neither the key nor the result of
`query`), and duplicate kinds never change the computed membership — but
they do change the key, since the source does not deduplicate. -/
theorem query_key_order_invariant (w : World) (k1 k2 kinds : List String)
    (h : k1.Perm k2) :
    cacheKey k1 = cacheKey k2 ∧
    (World.query w k1).1 = (World.query w k2).1 ∧
    World.queryResult w kinds = World.queryResult w kinds.dedup := by
  have hk := cacheKey_perm_eq h
  have hres : World.queryResult w k1 = World.queryResult w k2 :=
    queryResult_ext w (fun x => h.mem_iff)
  refine ⟨hk, ?_, queryResult_ext w (fun x => (List.mem_dedup).symm)⟩
  simp only [World.query, hk, hres]

/-- Claim C4, witness: at the concrete world `w1ex`, `query("B","A")` and
`query("A","B")` share the key and the result, and duplicating "A" in the
kind list leaves the computed membership unchanged. -/
theorem query_key_order_invariant_witness :
    cacheKey ["B", "A"] = cacheKey ["A", "B"] ∧
    (World.query w1ex ["B", "A"]).1 = (World.query w1ex ["A", "B"]).1 ∧
    World.queryResult w1ex ["A", "A", "B"] = World.queryResult w1ex (["A", "A", "B"]).dedup :=
  query_key_order_invariant w1ex ["B", "A"] ["A", "B"] ["A", "A", "B"] (by decide)

/-- Claim C5: `addComponent(id, component)` fails with `EntityNotFound`
exactly when `id` has no component map (none is ever created except by
registration, and removal deletes it); on success it stores the component
under its kind — overwriting any component of that kind in place — fires the
new component's attach hook exactly when one is present, empties the query
cache, and the emitted trace contains no detach call for the overwritten
component (no detach event at all). -/
theorem addComponent_spec (w : World) (id : Nat) (c : Component) :
    (World.addComponent w id c = Except.error (Err.EntityNotFound id) ↔
      mapGet w.components id = none) ∧
    (∀ m, mapGet w.components id = some m →
      World.addComponent w id c =
        Except.ok
          ({ w with components := mapSet w.components id (mapSet m c.kind c),
                    queryCache := [] },
           if c.hasAttach then [Event.attach c.kind c.cid] else []) ∧
      mapGet (mapSet m c.kind c) c.kind = some c ∧
      (∀ k i2, Event.detach k i2 ∉
        (if c.hasAttach then [Event.attach c.kind c.cid] else []))) := by
  constructor
  · cases hm : mapGet w.components id with
    | none => simp [World.addComponent, hm]
    | some m => simp [World.addComponent, hm]
  · intro m hm
    refine ⟨by simp [World.addComponent, hm], mapGet_mapSet_self m c.kind c, ?_⟩
    intro k i2
    by_cases hA : c.hasAttach <;> simp [hA]

/-- Claim C6: `switchTo(name)` raises `StageNotFound` when `name` is
unregistered — the throw happens before any state change, so the current
stage is untouched and no destroy or init hook fires (the error carries no
new state and no events); when `name` is registered and a stage is current,
the trace is exactly [destroy current, init next] — the destroy fires exactly
once, before the init — and the requested stage becomes current; with no
current stage only the init fires. -/
theorem switchTo_spec (m : SceneManager) (name : String) :
    (mapGet m.stages name = none →
      SceneManager.switchTo m name = Except.error (Err.StageNotFound name)) ∧
    (∀ st, mapGet m.stages name = some st →
      ∀ cur, m.currentStage = some cur →
        SceneManager.switchTo m name =
          Except.ok ({ m with currentStage := some st },
            [Event.stageDestroy cur.name, Event.stageInit st.name])) ∧
    (∀ st, mapGet m.stages name = some st →
      m.currentStage = none →
        SceneManager.switchTo m name =
          Except.ok ({ m with currentStage := some st }, [Event.stageInit st.name])) := by
  refine ⟨?_, ?_, ?_⟩
  · intro h
    simp [SceneManager.switchTo, h]
  · intro st hst cur hcur
    simp [SceneManager.switchTo, hst, hcur]
  · intro st hst hcur
    simp [SceneManager.switchTo, hst, hcur]

/-- Claim C6, witness: on the concrete manager `smEx` (current stage "menu"),
switching to the unregistered "nope" raises `StageNotFound`, and switching to
"game" destroys "menu" exactly once before initializing "game". -/
theorem switchTo_spec_witness :
    SceneManager.switchTo smEx "nope" = Except.error (Err.StageNotFound "nope") ∧
    SceneManager.switchTo smEx "game" =
      Except.ok ({ smEx with currentStage := some stGame },
        [Event.stageDestroy "menu", Event.stageInit "game"]) := by
  constructor
  · exact (switchTo_spec smEx "nope").1 (by decide)
  · exact ((switchTo_spec smEx "game").2.1 stGame (by decide) stMenu (by decide)).trans (by decide)

/-- Claim C7: on a running clock with a positive target FPS (so
`minFrameTime = 1000 / targetFPS`), a tick whose `deltaMs` is below the
minimum inter-frame interval is skipped — the state (in particular
`lastFrameTime`) is unchanged and the callback is not invoked — and whenever
the callback is invoked, the delta it receives is at least `1 / targetFPS`
seconds (exactly, over ℚ); with `targetFPS = 0` a tick on a running clock is
never skipped. -/
theorem tick_frame_cap (tm : Time) (t : ℚ) (hrun : tm.isRunning = true) :
    (0 < tm.targetFPS → tm.minFrameTime = 1000 / tm.targetFPS →
      ((t - tm.lastFrameTime < tm.minFrameTime → Time.tick tm t = TickResult.skipped tm) ∧
       (∀ t2 d e, Time.tick tm t = TickResult.ran t2 (some (d, e)) →
          1 / tm.targetFPS ≤ d))) ∧
    (tm.targetFPS = 0 → ∃ t2 args, Time.tick tm t = TickResult.ran t2 args) := by
  constructor
  · intro hfps hmin
    constructor
    · intro hlt
      rw [Time.tick, if_neg (by simp [hrun]), if_pos ⟨hfps, hlt⟩]
    · intro t2 d e heq
      by_cases hcond : 0 < tm.targetFPS ∧ t - tm.lastFrameTime < tm.minFrameTime
      · rw [Time.tick, if_neg (by simp [hrun]), if_pos hcond] at heq
        exact absurd heq (by simp)
      · rw [Time.tick, if_neg (by simp [hrun]), if_neg hcond] at heq
        injection heq with hstate hargs
        by_cases hcb : tm.hasCallback
        · rw [if_pos hcb] at hargs
          have hpair := Option.some.inj hargs
          have hd : d = (t - tm.lastFrameTime) / 1000 := (congrArg Prod.fst hpair).symm
          have hge : tm.minFrameTime ≤ t - tm.lastFrameTime := by
            by_contra hno
            push_neg at hno
            exact hcond ⟨hfps, hno⟩
          rw [hmin] at hge
          have hkey : (1000 : ℚ) / tm.targetFPS / 1000 = 1 / tm.targetFPS := by
            rw [div_div, mul_comm tm.targetFPS 1000, ← div_div]
            norm_num
          rw [hd, ← hkey]
          gcongr
        · rw [if_neg hcb] at hargs
          exact absurd hargs (by simp)
  · intro hfps
    rw [Time.tick, if_neg (by simp [hrun]), if_neg (by simp [hfps])]
    exact ⟨_, _, rfl⟩

/-- Claim C7, witness: the concrete 30-FPS clock `tmW` (last frame at
t = 1000 ms), ticked 16 ms later, skips the frame with its state unchanged. -/
theorem tick_frame_cap_witness : Time.tick tmW 1016 = TickResult.skipped tmW :=
  ((tick_frame_cap tmW 1016 rfl).1 (by norm_num [tmW]) rfl).1 (by norm_num [tmW])

/-- Claim C8, counterexample: `start` on a stopped clock runs the first tick
synchronously inside `start` (not via the animation-frame primitive), and
the elapsed it reports is measured from the constructor's `startTime`, not
from the moment the loop started: a clock constructed at t = 0 and started
at t = 5000 immediately invokes the callback with elapsed = 5 seconds,
although the loop started 0 seconds ago. -/
theorem start_elapsed_cex :
    Time.start (Time.create 0 0) 5000 =
      StartResult.started (TickResult.ran t8ex (some (0, 5))) ∧
    (5 : ℚ) ≠ 0 := by
  constructor
  · norm_num [Time.start, Time.create, Time.tick, t8ex]
  · norm_num

/-- Claim C8, amended: `start(callback)` while running is a pure no-op apart
from the warning signal — state, counters and callback unchanged, no error;
while stopped it stores the callback, transitions to running, records `now`
as `lastFrameTime` and immediately invokes `tick(now)` synchronously
(subsequent ticks are scheduled via the animation-frame primitive);
`startTime` is NOT re-captured, so the elapsed reported to the callback
measures time since construction (or the last `reset`), not since the loop
start — with an uncapped clock the first tick fires the callback with
`delta = 0` and `elapsed = (now - startTime) / 1000`. -/
theorem start_spec (tm : Time) (now : ℚ) :
    (tm.isRunning = true → Time.start tm now = StartResult.alreadyRunning tm) ∧
    (tm.isRunning = false →
      Time.start tm now =
        StartResult.started
          (Time.tick { tm with hasCallback := true, isRunning := true, lastFrameTime := now }
            now)) ∧
    (tm.isRunning = false → tm.targetFPS = 0 →
      ∃ t2, Time.start tm now =
        StartResult.started (TickResult.ran t2 (some (0, (now - tm.startTime) / 1000)))) := by
  refine ⟨?_, ?_, ?_⟩
  · intro h
    rw [Time.start, if_pos h]
  · intro h
    rw [Time.start, if_neg (by simp [h])]
  · intro h hfps
    rw [Time.start, if_neg (by simp [h]), Time.tick, if_neg (by simp), if_neg (by simp [hfps])]
    norm_num

/-- Claim C9: `World.clear()` empties every store, its trace is every
system's destroy hook (in system-list order) followed by every component's
detach hook (in store order) — systems first, components second, hooks
skipped exactly where absent — and afterwards any query returns the empty
set and the entity count is 0. -/
theorem clear_spec (w : World) (kinds : List String) :
    World.clear w =
      (World.empty,
       (w.systems.filter (fun s => s.hasDestroy)).map (fun s => Event.sysDestroy s.name) ++
       (w.components.map (fun p =>
         (p.2.filter (fun q => q.2.hasDetach)).map
           (fun q => Event.detach q.2.kind q.2.cid))).flatten) ∧
    (World.query (World.clear w).1 kinds).1 = [] ∧
    World.getEntityCount (World.clear w).1 = 0 := by
  refine ⟨rfl, ?_, rfl⟩
  simp [World.clear, World.query, World.empty, World.queryResult, mapGet]

/-- Claim C10: toggling an entity's `active` flag leaves the query cache
untouched, so a second query with the same kind list and no intervening
structural mutation returns the cached membership unchanged, even when an
entity in the result was deactivated (or activated) between the two calls. -/
theorem active_toggle_keeps_cache (w : World) (id : Nat) (kinds : List String) :
    (World.deactivateEntity w id).queryCache = w.queryCache ∧
    (World.activateEntity w id).queryCache = w.queryCache ∧
    (World.query (World.deactivateEntity (World.query w kinds).2 id) kinds).1 =
      (World.query w kinds).1 ∧
    (World.query (World.activateEntity (World.query w kinds).2 id) kinds).1 =
      (World.query w kinds).1 := by
  have hc := query_caches w kinds
  refine ⟨rfl, rfl, ?_, ?_⟩
  · have hc2 : mapGet (World.deactivateEntity (World.query w kinds).2 id).queryCache
        (cacheKey kinds) = some (World.query w kinds).1 := hc
    rw [query_hit (World.deactivateEntity (World.query w kinds).2 id) kinds _ hc2]
  · have hc2 : mapGet (World.activateEntity (World.query w kinds).2 id).queryCache
        (cacheKey kinds) = some (World.query w kinds).1 := hc
    rw [query_hit (World.activateEntity (World.query w kinds).2 id) kinds _ hc2]

/-- Claim C1, witness: at the concrete worlds, a successful `addComponent`
leaves an empty cache, and a query on the empty-cache world returns the
freshly recomputed membership. -/
theorem mutation_invalidates_cache_witness :
    w1ex.queryCache = [] ∧
    (World.query w1ex ["A"]).1 = World.queryResult w1ex ["A"] := by
  constructor
  · exact (mutation_invalidates_cache w0ex 1 compA "A" ["A"] entE).2.1 w1ex [] (by decide)
  · exact (mutation_invalidates_cache w1ex 1 compA "A" ["A"] entE).2.2.2.1 rfl

/-- Claim C5, witness: adding to the never-registered id 1 of a fresh world
throws `EntityNotFound`; adding to the registered entity of `w0ex` succeeds
with the attach-if-present trace. -/
theorem addComponent_spec_witness :
    World.addComponent World.empty 1 compA = Except.error (Err.EntityNotFound 1) ∧
    World.addComponent w0ex 1 compA =
      Except.ok ({ w0ex with components := mapSet w0ex.components 1 (mapSet [] compA.kind compA),
                             queryCache := [] },
                 if compA.hasAttach then [Event.attach compA.kind compA.cid] else []) := by
  exact ⟨(addComponent_spec World.empty 1 compA).1.mpr rfl,
         ((addComponent_spec w0ex 1 compA).2 [] rfl).1⟩

/-- Claim C8, witness: starting the already-running clock `t8ex` is a no-op
(the warning branch), and starting the stopped clock constructed at t = 0
runs the first tick synchronously at t = 5000. -/
theorem start_spec_witness :
    Time.start t8ex 6000 = StartResult.alreadyRunning t8ex ∧
    Time.start (Time.create 0 0) 5000 =
      StartResult.started
        (Time.tick { Time.create 0 0 with hasCallback := true, isRunning := true,
                                          lastFrameTime := 5000 } 5000) := by
  exact ⟨(start_spec t8ex 6000).1 rfl, (start_spec (Time.create 0 0) 5000).2.1 rfl⟩
